import Mathlib

/-!
The Twitter crawl adapter (`src/adapters/twitter/twitter.js`) and the distribution list of
`src/coreLogic.js`.

A shallow embedding of the class `Twitter`: its fields become the record `Twitter`, every
method becomes a function from a state to an outcome and a new state, and everything the
class asks of the outside world (the clock, the browser, the storage client, the round
provider) is answered by an oracle `Env` that is indexed by the number of questions asked so
far (`Twitter.tick`).  The field `log` is a ghost trace of the effects performed.
-/

set_option autoImplicit false

namespace TwitterCrawler

/-! ## Values -/

/-- The populated object built by `parseItem` (lines 241-248). -/
structure TweetData where
  user : String
  content : String
  comment : String
  like : String
  share : String
  view : String
deriving DecidableEq, Repr

/-- A record of the `cids` store, as created by `crawl` (lines 297-301). -/
structure CidRecord where
  id : String
  round : Nat
  cid : String
deriving DecidableEq, Repr

/-- A record of the `proofs` store, as created by `getSubmissionCID` (lines 186-190). -/
structure ProofRecord where
  id : String
  proof_round : Nat
  proof_cid : String
deriving DecidableEq, Repr

/-- The two shapes of object handed to `makeFileFromObjectWithName`: the array returned by
`cids.getList` and the object returned by `parseItem` (`none` is the empty object). -/
inductive JsObj where
  | array (items : List CidRecord)
  | object (data : Option TweetData)
deriving DecidableEq, Repr

/-- The JSON text placed in the file `data.json`, kept structured.  `JSON.stringify` of an
array writes its elements only, so the `url` property set on it is not part of the text. -/
inductive File where
  | cidList (items : List CidRecord)
  | item (data : Option TweetData) (url : String)
deriving DecidableEq, Repr

/-- One `article[data-testid="tweet"]` element of a rendered page: the text of its
`tweetText` div, of its `a[tabindex="-1"]` anchors and of its counter spans, in order. -/
structure Article where
  tweetText : String
  tweetUser : String
  counters : List String
deriving DecidableEq, Repr

/-- How one run of `negotiateSession` ends: it throws before `this.browser` is assigned
(lines 67-72), before `this.page` is assigned (line 75), later during the viewport call or
the login flow (lines 78-141), or it completes. -/
inductive Negotiation where
  | failLaunch (e : String)
  | failNewPage (e : String)
  | failLogin (e : String)
  | completes
deriving DecidableEq, Repr

/-- The observable effects, in the order they are performed. -/
inductive Event where
  | negotiate (startedAt : Nat)
  | extract (url : String)
  | storeFiles (file : File)
  | proofsCreate (r : ProofRecord)
  | cidsCreate (r : CidRecord)
deriving DecidableEq, Repr

/-- The argument of `crawl` and `parseItem`. -/
structure Query where
  query : String
  searchTerm : String
  limit : Nat
  isRecursive : Bool
  recursive : Bool
deriving DecidableEq, Repr

/-- The outside world.  Each field is asked with the current `tick`. -/
structure Env where
  /-- The value of `Date.now()` in milliseconds. -/
  now : Nat → Nat
  /-- How a negotiation started now ends. -/
  negotiation : Nat → Negotiation
  /-- The result of `client.put(files)` for a single file. -/
  put : Nat → File → Except String String
  /-- The `href` attribute of every `a` element of the page rendered for a URL by
  `fetchList`, in document order (`none`: the attribute is absent), or the error thrown by
  the browser. -/
  anchors : Nat → String → Except String (List (Option String))
  /-- The `article` elements of the page rendered for a URL by `parseItem`, or the error
  thrown by the browser. -/
  articles : Nat → String → Except String (List Article)
  /-- The result of `query.updateRound()`; `none` stands for `undefined` or `null`. -/
  updateRound : Nat → Except String (Option Nat)
  /-- Whether `stop()` has been called by the time the loop condition is evaluated. -/
  stopRequested : Nat → Bool

/-- A JavaScript array used as in `crawl`: its `length` and the properties set on it. -/
structure JsArray where
  length : Nat
  props : List (String × Option TweetData)
deriving DecidableEq, Repr

/-- The fields of the class (constructor, lines 19-33), a question counter and the trace.
The store `db` is created by the constructor and used by none of the methods. -/
structure Twitter where
  proofs : List ProofRecord
  cids : List CidRecord
  toCrawl : List String
  parsed : JsArray
  lastSessionCheck : Option Nat
  sessionValid : Bool
  browser : Bool
  page : Bool
  breakFlag : Bool
  tick : Nat
  log : List Event
deriving DecidableEq, Repr

/-- The state left by the constructor. -/
def Twitter.new : Twitter :=
  { proofs := [], cids := [], toCrawl := [], parsed := ⟨0, []⟩, lastSessionCheck := none,
    sessionValid := false, browser := false, page := false, breakFlag := false,
    tick := 0, log := [] }

/-- Advance the question counter. -/
def Twitter.next (s : Twitter) : Twitter := { s with tick := s.tick + 1 }

/-- Append an effect to the trace. -/
def Twitter.emit (s : Twitter) (e : Event) : Twitter := { s with log := s.log ++ [e] }

/-! ## The key-value store -/

/-- Modelled from the spec: the class `Data` of `model/data` is not among the sources.  The
store is a mapping keyed by the `id` of a record; `create` puts the record under its id. -/
def Data.create {α : Type} (key : α → String) (store : List α) (r : α) : List α :=
  store.filter (fun x => decide (key x ≠ key r)) ++ [r]

/-- Modelled from the spec: `getItem(id)` is the record created with that id, else null. -/
def Data.getItem {α : Type} (key : α → String) (store : List α) (id : String) : Option α :=
  store.find? (fun x => decide (key x = id))

/-- Modelled from the spec: `getList({ round })` is the sequence of the records of that
round. -/
def Data.getList (store : List CidRecord) (round : Nat) : List CidRecord :=
  store.filter (fun x => decide (x.round = round))

/-- The id under which `getSubmissionCID` looks a round up: the round itself (line 163).
Ids are strings, so the number is compared through its decimal text. -/
def roundKey (round : Nat) : String := toString round

/-- The id under which `getSubmissionCID` stores the proof of a round (line 187). -/
def proofId (round : Nat) : String := "proof:" ++ toString round

/-! ## Storage helpers (lines 388-401) -/

/-- The function `makeFileFromObjectWithName`: sets `obj.url = name` and serialises. -/
def makeFileFromObjectWithName (obj : JsObj) (name : String) : File :=
  match obj with
  | .array items => .cidList items
  | .object data => .item data name

/-- The function `storeFiles`: one `client.put` call, which returns the CID or throws. -/
def storeFiles (env : Env) (file : File) (s : Twitter) : Except String String × Twitter :=
  (env.put s.tick file, (s.emit (.storeFiles file)).next)

/-! ## Session handling (lines 44-151) -/

/-- The methods `negotiateSession` and `twitterLogin`.  The fields are assigned as far as
the run gets; `sessionValid` and `lastSessionCheck` are assigned only at the end of a login
that did not throw (lines 143-144). -/
def negotiateSession (env : Env) (s : Twitter) : Except String Bool × Twitter :=
  let s1 := (s.emit (.negotiate (env.now s.tick))).next
  match env.negotiation s.tick with
  | .failLaunch e => (.error e, s1)
  | .failNewPage e => (.error e, { s1 with browser := true })
  | .failLogin e => (.error e, { s1 with browser := true, page := true })
  | .completes =>
    (.ok true, { s1 with browser := true, page := true, sessionValid := true,
                         lastSessionCheck := some (env.now s1.tick), tick := s1.tick + 1 })

/-- The method `checkSession`.  `Date.now() - null` is `Date.now()`. -/
def checkSession (env : Env) (s : Twitter) : Except String Bool × Twitter :=
  if s.sessionValid then (.ok true, s)
  else
    let now := env.now s.tick
    let s1 := s.next
    if (now : Int) - ((s.lastSessionCheck.getD 0 : Nat) : Int) > 60000 then
      match negotiateSession env s1 with
      | (.error e, s2) => (.error e, s2)
      | (.ok _, s2) => (.ok true, s2)
    else (.ok false, s1)

/-! ## The proof of a round (lines 160-200) -/

/-- What `getSubmissionCID` returns: the stored record when the lookup hits (line 168), the
CID string after an upload (line 193). -/
inductive Submission where
  | record (r : ProofRecord)
  | cid (c : String)
deriving DecidableEq, Repr

/-- The method `getSubmissionCID`.  `this.proofs` is assigned by the constructor and never
reset, so the outer test of line 161 succeeds. -/
def getSubmissionCID (env : Env) (round : Nat) (s : Twitter) :
    Except String Submission × Twitter :=
  match Data.getItem ProofRecord.id s.proofs (roundKey round) with
  | some proof_cid => (.ok (.record proof_cid), s)
  | none =>
    let data := Data.getList s.cids round
    if data.length = 0 then
      (.error ("No cids found for round " ++ toString round), s)
    else
      let file := makeFileFromObjectWithName (.array data) ("round:" ++ toString round)
      match storeFiles env file s with
      | (.error e, s1) => (.error e, s1)
      | (.ok cid, s1) =>
        let r : ProofRecord := { id := proofId round, proof_round := round, proof_cid := cid }
        (.ok (.cid cid),
          { s1 with proofs := Data.create ProofRecord.id s1.proofs r,
                    log := s1.log ++ [.proofsCreate r] })

/-! ## Link discovery (lines 317-354, 421-423) -/

/-- The part `\d+[^/]*$` of the pattern: one or more digits, then characters other than the
slash up to the end of the text.  The digits are taken greedily; giving some back leaves the
same characters for the class `[^/]`, so this decides the match. -/
def matchDigitsToEnd (cs : List Char) : Bool :=
  !(cs.takeWhile Char.isDigit).isEmpty && (cs.dropWhile Char.isDigit).all (fun c => c != '/')

/-- The pattern `\/status\/\d+[^/]*$` matched at the start of the text. -/
def matchHere (cs : List Char) : Bool :=
  "/status/".toList.isPrefixOf cs && matchDigitsToEnd (cs.drop 8)

/-- The pattern searched at every position of the text, as `regex.test` does. -/
def regexSearch : List Char → Bool
  | [] => matchHere []
  | c :: cs => matchHere (c :: cs) || regexSearch cs

/-- The filter of lines 337-341: `regex.test(href)`; an absent `href` is `undefined`,
which `test` converts to the text `undefined`. -/
def regexTest (href : Option String) : Bool :=
  regexSearch (href.getD "undefined").toList

/-- The function `getUnique`: the elements of `new Set(array)` in insertion order. -/
def getUnique (array : List String) : List String :=
  array.foldl (fun set x => if x ∈ set then set else set ++ [x]) []

/-- Lines 337-348 of `fetchList`: filter the anchors, build the absolute URLs, deduplicate. -/
def uniqueLinks (links : List (Option String)) : List String :=
  let matchedLinks := links.filter regexTest
  let linkStrings := matchedLinks.map (fun link => "https://twitter.com" ++ link.getD "undefined")
  getUnique linkStrings

/-- The method `fetchList`.  It uses `this.page` at once (line 321), which throws while no
page has been opened. -/
def fetchList (env : Env) (url : String) (s : Twitter) : Except String (List String) × Twitter :=
  if s.page then
    match env.anchors s.tick url with
    | .error e => (.error e, s.next)
    | .ok links => (.ok (uniqueLinks links), s.next)
  else (.error "TypeError: Cannot read properties of undefined", s)

/-! ## Extraction (lines 210-265) -/

/-- The call `tweet_text.replace(/\n/g, '<br>')`. -/
def replaceNewlines (text : String) : String :=
  String.mk (text.toList.flatMap (fun c => if c = '\n' then "<br>".toList else [c]))

/-- Lines 225-249 of `parseItem`: the object built from the first article, if any.  The
texts read from a missing element are empty. -/
def parseArticles (articles : List Article) : Option TweetData :=
  let tweet_text := (articles.head?.map Article.tweetText).getD ""
  let tweet_user := (articles.head?.map Article.tweetUser).getD ""
  let tweet_record := (articles.head?.map Article.counters).getD []
  if tweet_user ≠ "" ∧ tweet_text ≠ "" then
    some { user := tweet_user, content := replaceNewlines tweet_text,
           comment := tweet_record.getD 0 "", like := tweet_record.getD 1 "",
           share := tweet_record.getD 2 "", view := tweet_record.getD 3 "" }
  else none

/-- Lines 216-249 and 264 of `parseItem`: render the URL on `this.page`, which throws while
no page has been opened, and build the object from the articles of the page. -/
def readItem (env : Env) (url : String) (s : Twitter) :
    Except String (Option TweetData) × Twitter :=
  if s.page then
    match env.articles s.tick url with
    | .error e => (.error e, s.next)
    | .ok articles => (.ok (parseArticles articles), s.next)
  else (.error "TypeError: Cannot read properties of undefined", s)

/-- The method `parseItem`: a negotiation whenever `sessionValid` is not set (lines 212-214),
then the reading of the page.  The callbacks of lines 254-261 are started without being
awaited and run beside the caller when `query.isRecursive` is set; they are outside this
embedding, which describes the method for queries that do not set `isRecursive`. -/
def parseItem (env : Env) (url : String) (_query : Query) (s : Twitter) :
    Except String (Option TweetData) × Twitter :=
  let s0 := s.emit (.extract url)
  if s0.sessionValid then readItem env url s0
  else
    match negotiateSession env s0 with
    | (.error e, s1) => (.error e, s1)
    | (.ok _, s1) => readItem env url s1

/-! ## The crawl loop (lines 273-309) -/

/-- The value of a canonical numeric text: the digits read in base ten. -/
def digitsValue (cs : List Char) : Nat :=
  cs.foldl (fun n c => 10 * n + (c.toNat - '0'.toNat)) 0

/-- The array index a property key denotes, if it is one: the canonical decimal text of a
number below `2^32 - 1`. -/
def arrayIndex (key : String) : Option Nat :=
  let cs := key.toList
  if cs ≠ [] ∧ cs.all Char.isDigit ∧ (cs.head? ≠ some '0' ∨ cs.length = 1)
      ∧ digitsValue cs < 4294967295 then
    some (digitsValue cs)
  else none

/-- The assignment `array[key] = value`: the length grows only for an array index. -/
def JsArray.set (a : JsArray) (key : String) (value : Option TweetData) : JsArray :=
  { length := match arrayIndex key with
      | some i => max a.length (i + 1)
      | none => a.length
    props := a.props.filter (fun p => decide (p.1 ≠ key)) ++ [(key, value)] }

/-- The loop condition of line 286, read after any `stop()` that has arrived. -/
def crawlCondition (env : Env) (q : Query) (s : Twitter) : Bool :=
  decide (s.parsed.length < q.limit) && !(s.breakFlag || env.stopRequested s.tick)

/-- Lines 303-306: for a query with `recursive === true` the links of the page just visited
are appended to the queue. -/
def discoverMore (env : Env) (q : Query) (url : String) (s : Twitter) :
    Except String Unit × Twitter :=
  if q.recursive then
    match fetchList env url s with
    | (.error e, s1) => (.error e, s1)
    | (.ok newLinks, s1) => (.ok (), { s1 with toCrawl := s1.toCrawl ++ newLinks })
  else (.ok (), s)

/-- Lines 291-306: what the pass does with the object that `parseItem` returned.  There is
no test on the object: it is recorded in `parsed`, written to a file, stored, and its CID
is recorded in `cids` under the URL and the round (`round || 0`).  The call `cids.create`
is not awaited; its effect is taken where the call is made. -/
def persistItem (env : Env) (q : Query) (round : Option Nat) (url : String)
    (data : Option TweetData) (s : Twitter) : Except String Unit × Twitter :=
  let s1 := { s with parsed := s.parsed.set url data }
  let file := makeFileFromObjectWithName (.object data) url
  match storeFiles env file s1 with
  | (.error e, s2) => (.error e, s2)
  | (.ok cid, s2) =>
    let r : CidRecord := { id := url, round := round.getD 0, cid := cid }
    discoverMore env q url
      { s2 with cids := Data.create CidRecord.id s2.cids r, log := s2.log ++ [.cidsCreate r] }

/-- The state in which the loop body calls `parseItem`: the round has been asked for and
the first URL has been taken off the queue. -/
def atParse (s : Twitter) (rest : List String) : Twitter :=
  { s.next with toCrawl := rest }

/-- One pass through the loop body, lines 287-307.  Nothing is caught: an error thrown by
`updateRound`, `parseItem`, `storeFiles` or `fetchList` leaves the body. -/
def crawlBody (env : Env) (q : Query) (s : Twitter) : Except String Unit × Twitter :=
  match env.updateRound s.tick with
  | .error e => (.error e, s.next)
  | .ok round =>
    match s.toCrawl with
    | [] => (.ok (), s.next)
    | url :: rest =>
      if url = "" then (.ok (), atParse s rest)
      else
        match parseItem env url q (atParse s rest) with
        | (.error e, s1) => (.error e, s1)
        | (.ok data, s1) => persistItem env q round url data s1

/-- How far a run of `crawl` has got after a number of passes. -/
inductive Run where
  | finished (s : Twitter)
  | threw (e : String) (s : Twitter)
  | running (s : Twitter)
deriving DecidableEq, Repr

/-- The `while` loop of line 286, run for at most `fuel` passes.  The loop is left when the
condition fails, with the flag set if a `stop()` has arrived, or when the body throws. -/
def crawlLoop (env : Env) (q : Query) : Nat → Twitter → Run
  | 0, s => .running s
  | fuel + 1, s =>
    if crawlCondition env q s then
      match crawlBody env q s with
      | (.error e, s1) => .threw e s1
      | (.ok _, s1) => crawlLoop env q fuel s1
    else .finished { s with breakFlag := s.breakFlag || env.stopRequested s.tick }

/-- The method `crawl`: seed the queue, reset `parsed`, loop. -/
def crawl (env : Env) (q : Query) (fuel : Nat) (s : Twitter) : Run :=
  match fetchList env q.query s with
  | (.error e, s1) => .threw e s1
  | (.ok links, s1) =>
    crawlLoop env q fuel { s1 with toCrawl := links, parsed := ⟨0, []⟩ }

/-- The state of a run. -/
def Run.state : Run → Twitter
  | .finished s => s
  | .threw _ s => s
  | .running s => s

/-! ## Properties used in the statements -/

/-- The proofs store holds only records whose id was built by `getSubmissionCID`. -/
def ProofsCreatedHere (store : List ProofRecord) : Prop :=
  ∀ p ∈ store, ∃ r : Nat, p.id = proofId r

/-- The elements of a list that have not occurred before, in the order of the list;
`seen` holds what has occurred so far. -/
def firstOccurrences (seen : List String) : List String → List String
  | [] => []
  | x :: xs =>
    if x ∈ seen then firstOccurrences seen xs else x :: firstOccurrences (x :: seen) xs

/-- The absolute URL of an anchor whose `href` matches the pattern, nothing for the others. -/
def permalinkOf (link : Option String) : Option String :=
  match link with
  | some href => if regexTest (some href) then some ("https://twitter.com" ++ href) else none
  | none => none

/-- A text that ends in `/status/` followed by digits and nothing else. -/
def EndsInStatusDigits (u : String) : Prop :=
  ∃ pre ds : List Char, u.toList = pre ++ "/status/".toList ++ ds ∧ ds ≠ [] ∧
    ∀ c ∈ ds, c.isDigit = true

/-- The pattern of line 339 read as a description of the text: somewhere in it stands
`/status/`, then one or more digits, then characters other than the slash up to the end. -/
def MatchesPermalink (href : String) : Prop :=
  ∃ pre ds rest : List Char, href.toList = pre ++ "/status/".toList ++ ds ++ rest ∧
    ds ≠ [] ∧ (∀ c ∈ ds, c.isDigit = true) ∧ '/' ∉ rest

/-- A URL of the site whose last path segment follows `/status/` and starts with a digit:
after the digits come only characters other than the slash. -/
def EndsInStatusSegment (u : String) : Prop :=
  ∃ pre ds rest : List Char,
    u.toList = "https://twitter.com".toList ++ (pre ++ "/status/".toList ++ ds ++ rest) ∧
    ds ≠ [] ∧ (∀ c ∈ ds, c.isDigit = true) ∧ '/' ∉ rest

/-! ## Sample worlds and states -/

/-- A clock that advances one millisecond per question. -/
def sampleClock (t : Nat) : Nat := 1700000000000 + t

/-- A storage client whose CID is a function of the file. -/
def sampleCid : File → String
  | .cidList items => "bafy-list-" ++ toString items.length
  | .item _ url => "bafy-item-" ++ url

/-- A world in which every call succeeds: a search page with two permalink anchors and one
other anchor, item pages with one article. -/
def sampleEnv : Env :=
  { now := sampleClock
    negotiation := fun _ => .completes
    put := fun _ file => .ok (sampleCid file)
    anchors := fun _ _ => .ok [some "/status/111", some "/status/222", some "/about"]
    articles := fun _ _ => .ok [{ tweetText := "hello", tweetUser := "@a", counters := ["1", "2"] }]
    updateRound := fun _ => .ok (some 7)
    stopRequested := fun _ => false }

/-- A world in which no login completes. -/
def noLoginEnv : Env :=
  { sampleEnv with negotiation := fun _ => .failLogin "TimeoutError: waiting for selector" }

/-- A world in which the item pages fail to load. -/
def noPageEnv : Env :=
  { sampleEnv with articles := fun _ _ => .error "TimeoutError: Navigation timeout" }

/-- A world in which the item pages hold no article. -/
def noArticleEnv : Env :=
  { sampleEnv with articles := fun _ _ => .ok [] }

/-- A world whose search page holds a link with text after the digits. -/
def looseLinkEnv : Env :=
  { sampleEnv with anchors := fun _ _ => .ok [some "/status/111abc"] }

/-- A world whose storage client accepts the first upload and fails from then on. -/
def flakyStoreEnv : Env :=
  { sampleEnv with
    put := fun t file =>
      if t = 0 then .ok (sampleCid file) else .error "Error: network request failed" }

/-- A crawler that has logged in. -/
def loggedIn : Twitter :=
  { Twitter.new with browser := true, page := true, sessionValid := true,
                     lastSessionCheck := some (sampleClock 0), tick := 1 }

/-- A crawler holding two item CIDs of round 7 and no proof. -/
def twoCids : Twitter :=
  { Twitter.new with
    cids := [{ id := "https://twitter.com/status/111", round := 7, cid := "cidA" },
             { id := "https://twitter.com/status/222", round := 7, cid := "cidB" }] }

/-- The query `limit = 1` on a search page. -/
def limitOne : Query :=
  { query := "https://twitter.com/search?q=test", searchTerm := "test", limit := 1,
    isRecursive := false, recursive := false }

/-- The sample run once its queue is empty, at question `t`: both URLs of the search page
have been extracted and stored, and `parsed.length` is still `0`. -/
def drained (t : Nat) : Twitter :=
  { proofs := []
    cids := [{ id := "https://twitter.com/status/111", round := 7,
               cid := "bafy-item-https://twitter.com/status/111" },
             { id := "https://twitter.com/status/222", round := 7,
               cid := "bafy-item-https://twitter.com/status/222" }]
    toCrawl := []
    parsed :=
      { length := 0
        props := [("https://twitter.com/status/111",
                   some { user := "@a", content := "hello", comment := "1", like := "2",
                          share := "", view := "" }),
                  ("https://twitter.com/status/222",
                   some { user := "@a", content := "hello", comment := "1", like := "2",
                          share := "", view := "" })] }
    lastSessionCheck := some (sampleClock 0)
    sessionValid := true
    browser := true
    page := true
    breakFlag := false
    tick := t
    log := [.extract "https://twitter.com/status/111",
            .storeFiles (.item (some { user := "@a", content := "hello", comment := "1",
                                       like := "2", share := "", view := "" })
                           "https://twitter.com/status/111"),
            .cidsCreate { id := "https://twitter.com/status/111", round := 7,
                          cid := "bafy-item-https://twitter.com/status/111" },
            .extract "https://twitter.com/status/222",
            .storeFiles (.item (some { user := "@a", content := "hello", comment := "1",
                                       like := "2", share := "", view := "" })
                           "https://twitter.com/status/222"),
            .cidsCreate { id := "https://twitter.com/status/222", round := 7,
                          cid := "bafy-item-https://twitter.com/status/222" }] }

/-- The question at which `parseItem` reads the page: the current one when the session is
valid, two later when a negotiation that completes comes first. -/
def readTick (s : Twitter) : Nat :=
  if s.sessionValid then s.tick else s.tick + 2

/-- A crawler that was refused a session a minute ago: the flag unset, the stamp set. -/
def staleSession : Twitter :=
  { Twitter.new with lastSessionCheck := some 1700000000000 }

/-- A clock that shows exactly 60000 ms after the stamp of `staleSession`. -/
def minuteLaterEnv : Env :=
  { sampleEnv with now := fun _ => 1700000060000 }

/-- A clock that shows 60001 ms after the stamp of `staleSession`. -/
def minutePlusOneEnv : Env :=
  { sampleEnv with now := fun _ => 1700000060001 }

/-- A clock that shows 60000 ms after the epoch. -/
def epochMinuteEnv : Env :=
  { sampleEnv with now := fun _ => 60000 }

/-! ## The distribution list (`src/coreLogic.js`, lines 69-131) -/

/-- One vote of an audit: the field `is_valid`. -/
structure Vote where
  is_valid : Bool
deriving DecidableEq, Repr

/-- An entry of `submissions_audit_trigger[round]`: the field `votes`. -/
structure AuditTrigger where
  votes : List Vote
deriving DecidableEq, Repr

/-- An entry of `submissions[round]`: the field `submission_value`. -/
structure SubmissionEntry where
  submission_value : String
deriving DecidableEq, Repr

/-- The two fields of the task state that `generateDistributionList` reads, as objects
keyed by round and then by public key.  A key that is absent reads as `undefined`. -/
structure TaskState where
  submissions : List (Nat × List (String × SubmissionEntry))
  submissions_audit_trigger : List (Nat × List (String × AuditTrigger))
deriving DecidableEq, Repr

/-- The names that every object inherits from `Object.prototype`: a read of one of them on
an object that has no own property of that name gives the inherited member, not
`undefined`. -/
def objectPrototypeKeys : List String :=
  ["constructor", "__defineGetter__", "__defineSetter__", "hasOwnProperty",
   "__lookupGetter__", "__lookupSetter__", "isPrototypeOf", "propertyIsEnumerable",
   "toString", "valueOf", "__proto__", "toLocaleString"]

/-- What the read `obj[key]` gives. -/
inductive Property (α : Type) where
  | own (value : α)
  | inherited
  | absent
deriving DecidableEq, Repr

/-- The read `obj[key]` on an object kept as its own entries: the own entry if there is
one, else the member inherited from `Object.prototype`, else `undefined`. -/
def readProperty {α : Type} (obj : List (String × α)) (key : String) : Property α :=
  match obj.lookup key with
  | some value => .own value
  | none => if key ∈ objectPrototypeKeys then .inherited else .absent

/-- The assignment `distributionList[key] = value` of a number on an object kept as its
entries in order: an existing key keeps its place, a new key goes to the end, and the key
`__proto__` is taken by the inherited setter, which ignores a number. -/
def setProperty (obj : List (String × Nat)) (key : String) (value : Nat) : List (String × Nat) :=
  if key = "__proto__" then obj
  else if obj.any (fun p => decide (p.1 = key)) then
    obj.map (fun p => if p.1 = key then (key, value) else p)
  else obj ++ [(key, value)]

/-- The inner loop of lines 103-107: one up for a valid vote, one down for any other. -/
def numOfVotes (votes : List Vote) : Int :=
  votes.foldl (fun n vote => if vote.is_valid then n + 1 else n - 1) 0

/-- One pass through the loop of lines 92-124 for the key `candidatePublicKey`: skipped
(`continue`) when the key has an audit entry whose count is negative, else the key is given
`1 * LAMPORTS_PER_SOL`.  When the round has an audit object and the read of the key finds
an inherited member, that member is truthy and has no `votes`, so `votes.length` throws:
the result is `none`. -/
def distributionStep (LAMPORTS_PER_SOL : Nat)
    (submissions_audit_trigger : Option (List (String × AuditTrigger)))
    (distributionList : List (String × Nat)) (candidatePublicKey : String) :
    Option (List (String × Nat)) :=
  match submissions_audit_trigger with
  | none => some (setProperty distributionList candidatePublicKey (1 * LAMPORTS_PER_SOL))
  | some trigger =>
    match readProperty trigger candidatePublicKey with
    | .own entry =>
      if numOfVotes entry.votes < 0 then some distributionList
      else some (setProperty distributionList candidatePublicKey (1 * LAMPORTS_PER_SOL))
    | .inherited => none
    | .absent => some (setProperty distributionList candidatePublicKey (1 * LAMPORTS_PER_SOL))

/-- The loop of lines 92-124 over the keys of `submissions[round]`; an error thrown in a
pass ends it. -/
def distributionLoop (LAMPORTS_PER_SOL : Nat)
    (submissions_audit_trigger : Option (List (String × AuditTrigger))) :
    List String → List (String × Nat) → Option (List (String × Nat))
  | [], distributionList => some distributionList
  | key :: keys, distributionList =>
    match distributionStep LAMPORTS_PER_SOL submissions_audit_trigger distributionList key with
    | none => none
    | some next => distributionLoop LAMPORTS_PER_SOL submissions_audit_trigger keys next

/-- The method `generateDistributionList`.  `LAMPORTS_PER_SOL` is imported from a package
that is not among the sources and is a parameter; `getTaskState` is the outcome of
`namespaceWrapper.getTaskState()`, `none` being `null`.  The entries of `submissions[round]`
are held in the order in which `Object.keys` lists them.  The result `none` is the
`undefined` returned after the `catch` of line 128 has logged an error. -/
def generateDistributionList (LAMPORTS_PER_SOL : Nat)
    (getTaskState : Except String (Option TaskState)) (round : Nat)
    (_dummyTaskState : Option TaskState) : Option (List (String × Nat)) :=
  match getTaskState with
  | .error _ => none
  | .ok fetched =>
    match fetched.orElse (fun _ => _dummyTaskState) with
    | none => none
    | some taskAccountDataJSON =>
      let submissions := taskAccountDataJSON.submissions.lookup round
      let submissions_audit_trigger := taskAccountDataJSON.submissions_audit_trigger.lookup round
      match submissions with
      | none => some []
      | some entries =>
        distributionLoop LAMPORTS_PER_SOL submissions_audit_trigger (entries.map Prod.fst) []

/-- The number of votes of an audit that are valid. -/
def validVotes (votes : List Vote) : Nat :=
  (votes.filter (fun vote => vote.is_valid)).length

/-- The number of votes of an audit that are not valid. -/
def invalidVotes (votes : List Vote) : Nat :=
  (votes.filter (fun vote => !vote.is_valid)).length

/-- A submitter is kept when the round has no audit entry for its key, or when the entry
holds at least as many valid as invalid votes. -/
def KeepsSubmitter (submissions_audit_trigger : Option (List (String × AuditTrigger)))
    (key : String) : Prop :=
  ∀ entry, submissions_audit_trigger.bind (fun trigger => trigger.lookup key) = some entry →
    invalidVotes entry.votes ≤ validVotes entry.votes

/-- A task state whose round 3 has an audit object and a submitter under the key
`constructor`, which has no audit entry. -/
def inheritedKeyState : TaskState :=
  { submissions := [(3, [("alice", { submission_value := "cidA" }),
                         ("constructor", { submission_value := "cidB" })])]
    submissions_audit_trigger := [(3, [("alice", { votes := [{ is_valid := true }] })])] }

/-- A task state whose round 3 has no audit object and a submitter under the key
`__proto__`. -/
def protoKeyState : TaskState :=
  { submissions := [(3, [("__proto__", { submission_value := "cidA" })])]
    submissions_audit_trigger := [] }

/-- A task state with three submitters in round 3: one not audited, one audited with a tie,
one audited with more invalid than valid votes. -/
def sampleTaskState : TaskState :=
  { submissions := [(3, [("alice", { submission_value := "cidA" }),
                         ("bob", { submission_value := "cidB" }),
                         ("carol", { submission_value := "cidC" })])]
    submissions_audit_trigger :=
      [(3, [("bob", { votes := [{ is_valid := true }, { is_valid := false }] }),
            ("carol", { votes := [{ is_valid := false }, { is_valid := true },
                                  { is_valid := false }] })])] }

/-! ## Lemmas on the keys of the proofs store -/


theorem digitChar_isDigit (k : Nat) (h : k < 10) : (Nat.digitChar k).isDigit = true := by
  interval_cases k <;> rfl

theorem toDigitsCore_isDigit (f : Nat) : ∀ (n : Nat) (acc : List Char),
    (∀ c ∈ acc, c.isDigit = true) → ∀ c ∈ Nat.toDigitsCore 10 f n acc, c.isDigit = true := by
  induction f with
  | zero => intro n acc hacc c hc; simpa [Nat.toDigitsCore] using hacc c hc
  | succ f ih =>
    intro n acc hacc c hc
    have hd : (Nat.digitChar (n % 10)).isDigit = true :=
      digitChar_isDigit _ (Nat.mod_lt _ (by decide))
    have hacc2 : ∀ c ∈ Nat.digitChar (n % 10) :: acc, c.isDigit = true := by
      intro c hc
      rcases List.mem_cons.1 hc with h | h
      · exact h ▸ hd
      · exact hacc c h
    simp only [Nat.toDigitsCore] at hc
    split at hc
    · exact hacc2 c hc
    · exact ih _ _ hacc2 c hc

theorem roundKey_isDigit (round : Nat) : ∀ c ∈ (roundKey round).toList, c.isDigit = true := by
  intro c hc
  have : (roundKey round).toList = Nat.toDigits 10 round := rfl
  rw [this] at hc
  exact toDigitsCore_isDigit _ _ [] (by simp) c hc

theorem proofId_ne_roundKey (r round : Nat) : proofId r ≠ roundKey round := by
  intro h
  have hp : 'p' ∈ (proofId r).toList := by
    simp [proofId, String.toList]
  rw [h] at hp
  have := roundKey_isDigit round 'p' hp
  exact absurd this (by decide)

theorem proofsCreatedHere_nil : ProofsCreatedHere [] := by
  intro p hp; cases hp

theorem proofsCreatedHere_create (store : List ProofRecord) (round : Nat) (cid : String)
    (h : ProofsCreatedHere store) :
    ProofsCreatedHere (Data.create ProofRecord.id store
      { id := proofId round, proof_round := round, proof_cid := cid }) := by
  intro p hp
  simp only [Data.create, List.mem_append, List.mem_filter, List.mem_singleton] at hp
  rcases hp with ⟨hp, _⟩ | hp
  · exact h p hp
  · exact ⟨round, by rw [hp]⟩

/-- The lookup of line 163 finds none of the records stored by line 186. -/
theorem getItem_roundKey_none (store : List ProofRecord) (round : Nat)
    (h : ProofsCreatedHere store) :
    Data.getItem ProofRecord.id store (roundKey round) = none := by
  simp only [Data.getItem, List.find?_eq_none, decide_eq_true_eq]
  intro p hp heq
  obtain ⟨r, hr⟩ := h p hp
  exact proofId_ne_roundKey r round (hr ▸ heq)

/-- On a store built by `getSubmissionCID` a round that has records is uploaded: the call
returns what the storage client returns for the list of the records of the round. -/
theorem getSubmissionCID_uploads (env : Env) (round : Nat) (s : Twitter)
    (hwf : ProofsCreatedHere s.proofs) (hne : Data.getList s.cids round ≠ []) :
    (getSubmissionCID env round s).1 =
      (env.put s.tick (.cidList (Data.getList s.cids round))).map Submission.cid := by
  have hlen : (Data.getList s.cids round).length ≠ 0 := by
    simpa [List.length_eq_zero] using hne
  unfold getSubmissionCID
  rw [getItem_roundKey_none _ _ hwf]
  simp only [hlen, if_false, storeFiles, makeFileFromObjectWithName]
  cases env.put s.tick (.cidList (Data.getList s.cids round)) <;> rfl

/-- The method never touches the `cids` store. -/
theorem getSubmissionCID_cids (env : Env) (round : Nat) (s : Twitter) :
    (getSubmissionCID env round s).2.cids = s.cids := by
  unfold getSubmissionCID
  split
  · rfl
  · by_cases hl : (Data.getList s.cids round).length = 0
    · simp only [hl, if_true]
    · simp only [hl, if_false, storeFiles]
      cases env.put s.tick
        (makeFileFromObjectWithName (.array (Data.getList s.cids round))
          ("round:" ++ toString round)) <;> rfl

/-- The method keeps the proofs store one that it built. -/
theorem getSubmissionCID_proofsCreatedHere (env : Env) (round : Nat) (s : Twitter)
    (hwf : ProofsCreatedHere s.proofs) :
    ProofsCreatedHere (getSubmissionCID env round s).2.proofs := by
  unfold getSubmissionCID
  split
  · exact hwf
  · by_cases hl : (Data.getList s.cids round).length = 0
    · simpa only [hl, if_true] using hwf
    · simp only [hl, if_false, storeFiles]
      cases env.put s.tick
        (makeFileFromObjectWithName (.array (Data.getList s.cids round))
          ("round:" ++ toString round)) with
      | error e => exact hwf
      | ok cid => exact proofsCreatedHere_create s.proofs round cid hwf

/-! ## Claims on the proof of a round -/

/-- C3: on a state whose proofs store was built by `getSubmissionCID`, a round without
records makes the call throw `No cids found for round R` and leaves the state, the trace of
writes and insertions included, as it was. -/
theorem getSubmissionCID_no_cids (env : Env) (round : Nat) (s : Twitter)
    (hwf : ProofsCreatedHere s.proofs) (hempty : Data.getList s.cids round = []) :
    getSubmissionCID env round s =
      (.error ("No cids found for round " ++ toString round), s) := by
  unfold getSubmissionCID
  rw [getItem_roundKey_none _ _ hwf, hempty]
  rfl

/-- C1: in a world whose storage client accepts the first upload and fails from then on,
on the state with item CIDs `cidA` and `cidB` of round 7 and no proof, the first call
returns the CID and stores the record under `proof:7`; the call that follows looks the
round up under `7`, finds nothing, uploads again and throws instead of returning that
CID. -/
theorem getSubmissionCID_second_call_not_memoised :
    (getSubmissionCID flakyStoreEnv 7 twoCids).1 = .ok (.cid "bafy-list-2") ∧
    (getSubmissionCID flakyStoreEnv 7 (getSubmissionCID flakyStoreEnv 7 twoCids).2).1 =
      .error "Error: network request failed" ∧
    Data.getItem ProofRecord.id (getSubmissionCID flakyStoreEnv 7 twoCids).2.proofs
      (proofId 7) = some { id := "proof:7", proof_round := 7, proof_cid := "bafy-list-2" } ∧
    Data.getItem ProofRecord.id (getSubmissionCID flakyStoreEnv 7 twoCids).2.proofs
      (roundKey 7) = none :=
  ⟨rfl, rfl, by decide, by decide⟩

/-- C2: in the sample world, on the state with item CIDs `cidA` and `cidB` of round 7 and
no proof, the first call stores the file and inserts the record `proof:7`; the call that
follows stores the file and inserts the record again. -/
theorem getSubmissionCID_second_call_writes_again :
    (getSubmissionCID sampleEnv 7 twoCids).2.log =
      [.storeFiles (.cidList twoCids.cids),
       .proofsCreate { id := "proof:7", proof_round := 7, proof_cid := "bafy-list-2" }] ∧
    (getSubmissionCID sampleEnv 7 (getSubmissionCID sampleEnv 7 twoCids).2).2.log =
      [.storeFiles (.cidList twoCids.cids),
       .proofsCreate { id := "proof:7", proof_round := 7, proof_cid := "bafy-list-2" },
       .storeFiles (.cidList twoCids.cids),
       .proofsCreate { id := "proof:7", proof_round := 7, proof_cid := "bafy-list-2" }] ∧
    Data.getItem ProofRecord.id (getSubmissionCID sampleEnv 7 twoCids).2.proofs (roundKey 7)
      = none := by
  decide

/-- Witness of C3: the constructor state has no record of round 7. -/
theorem getSubmissionCID_no_cids_witness :
    getSubmissionCID sampleEnv 7 Twitter.new =
      (.error ("No cids found for round " ++ toString 7), Twitter.new) :=
  getSubmissionCID_no_cids sampleEnv 7 Twitter.new (by intro p hp; cases hp) (by decide)

/-! ## Claims on the crawl loop -/

/-- Running the loop for `a + b` passes is running it for `a` and then for `b`. -/
theorem crawlLoop_add (env : Env) (q : Query) (a b : Nat) : ∀ s : Twitter,
    crawlLoop env q (a + b) s =
      match crawlLoop env q a s with
      | .running s1 => crawlLoop env q b s1
      | r => r := by
  induction a with
  | zero => intro s; simp [crawlLoop]
  | succ a ih =>
    intro s
    rw [Nat.succ_add]
    simp only [crawlLoop]
    split
    · split
      · rfl
      · exact ih _
    · rfl

/-- Once the queue of the sample run is empty every further pass asks for the round and
changes nothing else. -/
theorem crawlLoop_drained (n : Nat) : ∀ t : Nat,
    crawlLoop sampleEnv limitOne n (drained t) = .running (drained (t + n)) := by
  induction n with
  | zero => intro t; rfl
  | succ n ih =>
    intro t
    have hstep : crawlLoop sampleEnv limitOne (n + 1) (drained t) =
        crawlLoop sampleEnv limitOne n (drained (t + 1)) := by
      simp [crawlLoop, crawlCondition, crawlBody, drained, sampleEnv, limitOne, Twitter.next]
    rw [hstep, ih, Nat.add_assoc, Nat.add_comm 1 n]

/-- C4: in the sample world `crawl` with `limit = 1` on a search page with two permalinks
extracts both URLs in its first two passes, and after any number of further passes it is
still running, its queue empty and `parsed.length` equal to `0`. -/
theorem crawl_limit_one_never_stops (fuel : Nat) :
    crawl sampleEnv limitOne (2 + fuel) loggedIn = .running (drained (8 + fuel)) ∧
    (crawl sampleEnv limitOne 0 loggedIn).state.toCrawl =
      ["https://twitter.com/status/111", "https://twitter.com/status/222"] ∧
    (crawl sampleEnv limitOne 1 loggedIn).state.toCrawl =
      ["https://twitter.com/status/222"] ∧
    (crawl sampleEnv limitOne 1 loggedIn).state.parsed.length = 0 := by
  refine ⟨?_, by decide, by decide, by decide⟩
  have h2 : crawl sampleEnv limitOne 2 loggedIn = .running (drained 8) := by decide
  have hadd : crawl sampleEnv limitOne (2 + fuel) loggedIn =
      match crawl sampleEnv limitOne 2 loggedIn with
      | .running s1 => crawlLoop sampleEnv limitOne fuel s1
      | r => r := by
    unfold crawl
    split
    · rfl
    · exact crawlLoop_add _ _ 2 fuel _
  rw [hadd, h2]
  exact crawlLoop_drained fuel 8

/-- C5: in a world where no login completes, a fresh crawler that is asked `checkSession`,
then `parseItem`, then `checkSession` starts a negotiation each time, within four
milliseconds, and `lastSessionCheck` is still unset at the end. -/
theorem failed_negotiation_is_retried_at_once :
    (checkSession noLoginEnv
      (parseItem noLoginEnv "https://twitter.com/status/111" limitOne
        (checkSession noLoginEnv Twitter.new).2).2).2.log =
      [.negotiate 1700000000001, .extract "https://twitter.com/status/111",
       .negotiate 1700000000002, .negotiate 1700000000004] ∧
    (checkSession noLoginEnv
      (parseItem noLoginEnv "https://twitter.com/status/111" limitOne
        (checkSession noLoginEnv Twitter.new).2).2).2.lastSessionCheck = none ∧
    (checkSession noLoginEnv Twitter.new).2.sessionValid = false := by
  decide

/-! ## Link discovery -/

/-- The set built by `getUnique` is the accumulator followed by the first occurrences. -/
theorem foldl_insert_eq (xs : List String) : ∀ acc seen : List String,
    (∀ x, x ∈ seen ↔ x ∈ acc) →
    xs.foldl (fun set x => if x ∈ set then set else set ++ [x]) acc =
      acc ++ firstOccurrences seen xs := by
  induction xs with
  | nil => intro acc seen _; simp [firstOccurrences]
  | cons x xs ih =>
    intro acc seen h
    by_cases hx : x ∈ acc
    · have hs : x ∈ seen := (h x).2 hx
      simp only [List.foldl_cons, hx, if_true, firstOccurrences, hs]
      exact ih acc seen h
    · have hs : x ∉ seen := fun hmem => hx ((h x).1 hmem)
      simp only [List.foldl_cons, hx, if_false, firstOccurrences, hs]
      rw [ih (acc ++ [x]) (x :: seen)]
      · simp
      · intro y
        simp only [List.mem_cons, List.mem_append, List.mem_singleton, h y, List.not_mem_nil,
          or_false]
        exact or_comm

theorem getUnique_eq_firstOccurrences (xs : List String) :
    getUnique xs = firstOccurrences [] xs := by
  unfold getUnique
  rw [foldl_insert_eq xs [] [] (fun _ => Iff.rfl)]
  rfl

theorem mem_firstOccurrences (xs : List String) : ∀ (seen : List String) (y : String),
    y ∈ firstOccurrences seen xs ↔ y ∈ xs ∧ y ∉ seen := by
  induction xs with
  | nil => intro seen y; simp [firstOccurrences]
  | cons x xs ih =>
    intro seen y
    by_cases hx : x ∈ seen
    · simp only [firstOccurrences, hx, if_true, ih, List.mem_cons]
      constructor
      · rintro ⟨h1, h2⟩; exact ⟨Or.inr h1, h2⟩
      · rintro ⟨h1 | h1, h2⟩
        · exact absurd (h1 ▸ hx) h2
        · exact ⟨h1, h2⟩
    · simp only [firstOccurrences, hx, if_false, List.mem_cons, ih]
      constructor
      · rintro (h | ⟨h1, h2⟩)
        · exact ⟨Or.inl h, h ▸ hx⟩
        · exact ⟨Or.inr h1, fun hmem => h2 (Or.inr hmem)⟩
      · rintro ⟨h1 | h1, h2⟩
        · exact Or.inl h1
        · by_cases hyx : y = x
          · exact Or.inl hyx
          · exact Or.inr ⟨h1, fun hmem => hmem.elim hyx h2⟩

theorem nodup_firstOccurrences (xs : List String) : ∀ seen : List String,
    (firstOccurrences seen xs).Nodup := by
  induction xs with
  | nil => intro seen; simp [firstOccurrences]
  | cons x xs ih =>
    intro seen
    by_cases hx : x ∈ seen
    · simpa only [firstOccurrences, hx, if_true] using ih seen
    · simp only [firstOccurrences, hx, if_false, List.nodup_cons]
      refine ⟨?_, ih _⟩
      rw [mem_firstOccurrences]
      rintro ⟨_, h⟩
      exact h (List.mem_cons_self _ _)

/-- An anchor without `href` does not pass the filter. -/
theorem regexTest_none : regexTest none = false := by decide

/-- The filter and the map of lines 337-346 keep the URL of every matching anchor. -/
theorem filter_map_eq_filterMap (links : List (Option String)) :
    (links.filter regexTest).map (fun link => "https://twitter.com" ++ link.getD "undefined") =
      links.filterMap permalinkOf := by
  induction links with
  | nil => rfl
  | cons link links ih =>
    cases link with
    | none => simp [List.filter, regexTest_none, permalinkOf, ih]
    | some href =>
      by_cases h : regexTest (some href) = true
      · simp [List.filter, h, permalinkOf, ih]
      · simp [List.filter, h, permalinkOf, ih]

theorem uniqueLinks_eq (links : List (Option String)) :
    uniqueLinks links = firstOccurrences [] (links.filterMap permalinkOf) := by
  unfold uniqueLinks
  simp only []
  rw [getUnique_eq_firstOccurrences, filter_map_eq_filterMap]

theorem mem_uniqueLinks (links : List (Option String)) (u : String) :
    u ∈ uniqueLinks links ↔
      ∃ href, some href ∈ links ∧ regexTest (some href) = true ∧
        u = "https://twitter.com" ++ href := by
  rw [uniqueLinks_eq, mem_firstOccurrences]
  simp only [List.mem_filterMap, List.not_mem_nil, not_false_eq_true, and_true]
  constructor
  · rintro ⟨link, hmem, hp⟩
    cases link with
    | none => simp [permalinkOf] at hp
    | some href =>
      by_cases h : regexTest (some href) = true
      · simp only [permalinkOf, h, if_true, Option.some.injEq] at hp
        exact ⟨href, hmem, h, hp.symm⟩
      · simp [permalinkOf, h] at hp
  · rintro ⟨href, hmem, h, rfl⟩
    exact ⟨some href, hmem, by simp [permalinkOf, h]⟩

/-- With a page open, `fetchList` returns the links of the anchors the browser shows. -/
theorem fetchList_ok (env : Env) (url : String) (s : Twitter) (links : List (Option String))
    (hpage : s.page = true) (hanchors : env.anchors s.tick url = .ok links) :
    (fetchList env url s).1 = .ok (uniqueLinks links) := by
  simp [fetchList, hpage, hanchors]

/-- Where the pattern matches at the start, the text is `/status/`, digits, and a rest
without a slash. -/
theorem matchHere_split (cs : List Char) (h : matchHere cs = true) :
    ∃ ds rest : List Char, cs = "/status/".toList ++ ds ++ rest ∧ ds ≠ [] ∧
      (∀ c ∈ ds, c.isDigit = true) ∧ '/' ∉ rest := by
  simp only [matchHere, Bool.and_eq_true, List.isPrefixOf_iff_prefix] at h
  obtain ⟨⟨t, ht⟩, hm⟩ := h
  have hdrop : cs.drop 8 = t := by rw [← ht]; rfl
  rw [hdrop] at hm
  simp only [matchDigitsToEnd, Bool.and_eq_true, Bool.not_eq_true', List.isEmpty_eq_false,
    List.all_eq_true] at hm
  refine ⟨t.takeWhile Char.isDigit, t.dropWhile Char.isDigit, ?_, ?_, ?_, ?_⟩
  · rw [List.append_assoc, List.takeWhile_append_dropWhile, ht]
  · simpa [List.isEmpty_iff] using hm.1
  · intro c hc; exact List.mem_takeWhile_imp hc
  · intro hmem
    have := hm.2 _ hmem
    simp at this

/-- Where the pattern is found, the text splits around the match. -/
theorem regexSearch_split (cs : List Char) (h : regexSearch cs = true) :
    ∃ pre ds rest : List Char, cs = pre ++ "/status/".toList ++ ds ++ rest ∧ ds ≠ [] ∧
      (∀ c ∈ ds, c.isDigit = true) ∧ '/' ∉ rest := by
  induction cs with
  | nil => exact absurd h (by decide)
  | cons c cs ih =>
    simp only [regexSearch, Bool.or_eq_true] at h
    rcases h with h | h
    · obtain ⟨ds, rest, h1, h2, h3, h4⟩ := matchHere_split _ h
      exact ⟨[], ds, rest, by simpa using h1, h2, h3, h4⟩
    · obtain ⟨pre, ds, rest, h1, h2, h3, h4⟩ := ih h
      exact ⟨c :: pre, ds, rest, by simp [h1], h2, h3, h4⟩

theorem uniqueLinks_segment (links : List (Option String)) (u : String)
    (hu : u ∈ uniqueLinks links) : EndsInStatusSegment u := by
  obtain ⟨href, _, hm, rfl⟩ := (mem_uniqueLinks links u).1 hu
  obtain ⟨pre, ds, rest, h1, h2, h3, h4⟩ := regexSearch_split href.toList hm
  refine ⟨pre, ds, rest, ?_, h2, h3, h4⟩
  rw [← h1]
  rfl

/-- C6: with a page open and whatever anchors the browser shows, `fetchList` returns a
list, and no URL occurs in it twice. -/
theorem fetchList_no_duplicates (env : Env) (url : String) (s : Twitter)
    (links : List (Option String))
    (hpage : s.page = true) (hanchors : env.anchors s.tick url = .ok links) :
    ∃ result, (fetchList env url s).1 = .ok result ∧ result.Nodup := by
  refine ⟨uniqueLinks links, fetchList_ok env url s links hpage hanchors, ?_⟩
  rw [uniqueLinks_eq]
  exact nodup_firstOccurrences _ _

/-- Witness of C6: the sample search page. -/
theorem fetchList_no_duplicates_witness :
    ∃ result, (fetchList sampleEnv "https://twitter.com/search?q=test" loggedIn).1 = .ok result ∧
      result.Nodup :=
  fetchList_no_duplicates sampleEnv "https://twitter.com/search?q=test" loggedIn
    [some "/status/111", some "/status/222", some "/about"] rfl rfl

/-- C7, as stated, fails: the anchor `/status/111abc` passes the filter, and the URL
returned for it does not end in `/status/` followed by digits only. -/
theorem fetchList_returns_loose_link :
    (fetchList looseLinkEnv "https://twitter.com/search?q=test" loggedIn).1 =
      .ok ["https://twitter.com/status/111abc"] ∧
    ¬ EndsInStatusDigits "https://twitter.com/status/111abc" := by
  refine ⟨rfl, ?_⟩
  rintro ⟨pre, ds, h, hne, hd⟩
  obtain ⟨ds1, d, rfl⟩ : ∃ ds1 d, ds = ds1 ++ [d] :=
    ⟨ds.dropLast, ds.getLast hne, (List.dropLast_append_getLast hne).symm⟩
  have hrev := congrArg List.reverse h
  simp only [List.reverse_append, List.reverse_cons, List.reverse_nil, List.nil_append,
    List.singleton_append, List.cons_append] at hrev
  have hc : d = 'c' := by
    have := congrArg List.head? hrev
    simpa [String.toList] using this.symm
  have := hd d (by simp)
  rw [hc] at this
  exact absurd this (by decide)

/-- C7, amended: with a page open, every URL that `fetchList` returns is
`https://twitter.com` followed by an `href` that ends in `/status/`, one or more digits,
and then characters other than the slash. -/
theorem fetchList_links_end_in_status_segment (env : Env) (url : String) (s : Twitter)
    (links : List (Option String))
    (hpage : s.page = true) (hanchors : env.anchors s.tick url = .ok links) :
    ∃ result, (fetchList env url s).1 = .ok result ∧ ∀ u ∈ result, EndsInStatusSegment u :=
  ⟨uniqueLinks links, fetchList_ok env url s links hpage hanchors,
    fun u hu => uniqueLinks_segment links u hu⟩

/-- Witness of C7, amended: the page with the link `/status/111abc`. -/
theorem fetchList_links_end_in_status_segment_witness :
    ∃ result, (fetchList looseLinkEnv "https://twitter.com/search?q=test" loggedIn).1 =
      .ok result ∧ ∀ u ∈ result, EndsInStatusSegment u :=
  fetchList_links_end_in_status_segment looseLinkEnv "https://twitter.com/search?q=test"
    loggedIn [some "/status/111abc"] rfl rfl

/-- Where the text starts with `/status/`, digits and a rest without a slash, the pattern
matches at the start. -/
theorem matchHere_of_split (ds rest : List Char) (hne : ds ≠ [])
    (hd : ∀ c ∈ ds, c.isDigit = true) (hr : '/' ∉ rest) :
    matchHere ("/status/".toList ++ ds ++ rest) = true := by
  have hpre : "/status/".toList <+: "/status/".toList ++ ds ++ rest :=
    ⟨ds ++ rest, by simp⟩
  have hdrop : ("/status/".toList ++ ds ++ rest).drop 8 = ds ++ rest := by
    rw [List.append_assoc]
    exact List.drop_left' rfl
  have htake : (ds ++ rest).takeWhile Char.isDigit = ds ++ rest.takeWhile Char.isDigit :=
    List.takeWhile_append_of_pos hd
  have hrest : (ds ++ rest).dropWhile Char.isDigit = rest.dropWhile Char.isDigit :=
    List.dropWhile_append_of_pos hd
  simp only [matchHere, Bool.and_eq_true, List.isPrefixOf_iff_prefix, hdrop, matchDigitsToEnd,
    htake, hrest, Bool.not_eq_true', List.isEmpty_eq_false, List.all_eq_true]
  refine ⟨hpre, ?_, ?_⟩
  · cases ds with
    | nil => exact absurd rfl hne
    | cons d ds => simp
  · intro c hc
    have hmem : c ∈ rest := (List.dropWhile_sublist Char.isDigit).subset hc
    have hne2 : c ≠ '/' := fun h => hr (h ▸ hmem)
    simpa using hne2

theorem regexSearch_of_matchHere (cs : List Char) (h : matchHere cs = true) :
    regexSearch cs = true := by
  cases cs with
  | nil => exact h
  | cons c cs => simp [regexSearch, h]

/-- Where the text splits around `/status/`, digits and a rest without a slash, the
pattern is found. -/
theorem regexSearch_of_split (pre ds rest : List Char) (hne : ds ≠ [])
    (hd : ∀ c ∈ ds, c.isDigit = true) (hr : '/' ∉ rest) :
    regexSearch (pre ++ "/status/".toList ++ ds ++ rest) = true := by
  induction pre with
  | nil => exact regexSearch_of_matchHere _ (by simpa using matchHere_of_split ds rest hne hd hr)
  | cons c pre ih =>
    have hcons : c :: pre ++ "/status/".toList ++ ds ++ rest =
        c :: (pre ++ "/status/".toList ++ ds ++ rest) := by simp
    rw [hcons]
    simp only [regexSearch, Bool.or_eq_true]
    exact Or.inr ih

/-- The filter of lines 337-341 keeps exactly the texts that the pattern describes. -/
theorem regexTest_iff (href : String) : regexTest (some href) = true ↔ MatchesPermalink href := by
  constructor
  · intro h
    exact regexSearch_split href.toList h
  · rintro ⟨pre, ds, rest, h1, h2, h3, h4⟩
    show regexSearch href.toList = true
    rw [h1]
    exact regexSearch_of_split pre ds rest h2 h3 h4

/-- C8: with a page open, `fetchList` returns the absolute URLs of the anchors whose `href`
matches the pattern (somewhere `/status/`, one or more digits, then no further slash) and
nothing else, each once, in the order of their first occurrence; an anchor whose `href`
does not match, or that has none, contributes nothing; for the anchors `/status/111`,
`/status/222` and `/about` the result is the two status URLs, and links to sub-resources
such as `/status/111/analytics` are left out. -/
theorem fetchList_returns_matching_links (env : Env) (url : String) (s : Twitter)
    (links : List (Option String))
    (hpage : s.page = true) (hanchors : env.anchors s.tick url = .ok links) :
    ∃ result, (fetchList env url s).1 = .ok result ∧
      (∀ u, u ∈ result ↔ ∃ href, some href ∈ links ∧ MatchesPermalink href ∧
        u = "https://twitter.com" ++ href) ∧
      result.Nodup ∧
      result = firstOccurrences [] (links.filterMap permalinkOf) ∧
      (∀ href, MatchesPermalink href →
        permalinkOf (some href) = some ("https://twitter.com" ++ href)) ∧
      (∀ href, ¬ MatchesPermalink href → permalinkOf (some href) = none) ∧
      permalinkOf none = none ∧
      uniqueLinks [some "/status/111", some "/status/222", some "/about"] =
        ["https://twitter.com/status/111", "https://twitter.com/status/222"] ∧
      uniqueLinks [some "/status/111/analytics", some "/status/abc", some "/status/", none,
          some "/status/111/photo/1", some "/status/222", some "/status/222"] =
        ["https://twitter.com/status/222"] := by
  refine ⟨uniqueLinks links, fetchList_ok env url s links hpage hanchors, ?_, ?_,
    uniqueLinks_eq links, ?_, ?_, rfl, by decide, by decide⟩
  · intro u
    rw [mem_uniqueLinks]
    constructor
    · rintro ⟨href, h1, h2, h3⟩
      exact ⟨href, h1, (regexTest_iff href).1 h2, h3⟩
    · rintro ⟨href, h1, h2, h3⟩
      exact ⟨href, h1, (regexTest_iff href).2 h2, h3⟩
  · rw [uniqueLinks_eq]
    exact nodup_firstOccurrences _ _
  · intro href h
    simp [permalinkOf, (regexTest_iff href).2 h]
  · intro href h
    have hf : ¬ regexTest (some href) = true := fun ht => h ((regexTest_iff href).1 ht)
    simp [permalinkOf, hf]

/-- Witness of C8: the sample search page, with the anchors `/status/111`, `/status/222` and
`/about`. -/
theorem fetchList_returns_matching_links_witness :
    ∃ result, (fetchList sampleEnv "https://twitter.com/search?q=test" loggedIn).1 = .ok result ∧
      (∀ u, u ∈ result ↔ ∃ href,
        some href ∈ [some "/status/111", some "/status/222", some "/about"] ∧
        MatchesPermalink href ∧ u = "https://twitter.com" ++ href) ∧
      result.Nodup ∧
      result = firstOccurrences []
        ([some "/status/111", some "/status/222", some "/about"].filterMap permalinkOf) ∧
      (∀ href, MatchesPermalink href →
        permalinkOf (some href) = some ("https://twitter.com" ++ href)) ∧
      (∀ href, ¬ MatchesPermalink href → permalinkOf (some href) = none) ∧
      permalinkOf none = none ∧
      uniqueLinks [some "/status/111", some "/status/222", some "/about"] =
        ["https://twitter.com/status/111", "https://twitter.com/status/222"] ∧
      uniqueLinks [some "/status/111/analytics", some "/status/abc", some "/status/", none,
          some "/status/111/photo/1", some "/status/222", some "/status/222"] =
        ["https://twitter.com/status/222"] :=
  fetchList_returns_matching_links sampleEnv "https://twitter.com/search?q=test" loggedIn
    [some "/status/111", some "/status/222", some "/about"] rfl rfl

/-! ## Failures and empty records in the loop -/

theorem negotiateSession_toCrawl (env : Env) (s : Twitter) :
    (negotiateSession env s).2.toCrawl = s.toCrawl := by
  unfold negotiateSession
  cases env.negotiation s.tick <;> rfl

theorem readItem_toCrawl (env : Env) (url : String) (s : Twitter) :
    (readItem env url s).2.toCrawl = s.toCrawl := by
  unfold readItem
  split
  · cases env.articles s.tick url <;> rfl
  · rfl

theorem parseItem_toCrawl (env : Env) (url : String) (q : Query) (s : Twitter) :
    (parseItem env url q s).2.toCrawl = s.toCrawl := by
  have hn := negotiateSession_toCrawl env (s.emit (.extract url))
  unfold parseItem
  dsimp only
  split
  · exact readItem_toCrawl env url _
  · rcases hneg : negotiateSession env (s.emit (.extract url)) with ⟨r, s1⟩
    rw [hneg] at hn
    cases r with
    | error e => exact hn
    | ok b => exact (readItem_toCrawl env url s1).trans hn

theorem fetchList_log (env : Env) (url : String) (s : Twitter) :
    (fetchList env url s).2.log = s.log ∧ (fetchList env url s).2.cids = s.cids := by
  unfold fetchList
  by_cases hp : s.page = true
  · simp only [hp, if_true]
    cases env.anchors s.tick url <;> exact ⟨rfl, rfl⟩
  · simp only [hp]
    exact ⟨rfl, rfl⟩

theorem discoverMore_log (env : Env) (q : Query) (url : String) (s : Twitter) :
    (discoverMore env q url s).2.log = s.log ∧ (discoverMore env q url s).2.cids = s.cids := by
  have hf := fetchList_log env url s
  unfold discoverMore
  by_cases hr : q.recursive = true
  · simp only [hr, if_true]
    rcases hfl : fetchList env url s with ⟨r, s1⟩
    rw [hfl] at hf
    cases r <;> exact hf
  · simp only [hr]
    exact ⟨rfl, rfl⟩

/-- A failure of the storage client leaves `persistItem` as the error, the queue untouched. -/
theorem persistItem_error (env : Env) (q : Query) (round : Option Nat) (url : String)
    (data : Option TweetData) (s : Twitter) (e : String)
    (hput : env.put s.tick (.item data url) = .error e) :
    ∃ s1, persistItem env q round url data s = (.error e, s1) ∧ s1.toCrawl = s.toCrawl := by
  have h : env.put ({ s with parsed := s.parsed.set url data } : Twitter).tick
      (.item data url) = .error e := hput
  simp only [persistItem, storeFiles, makeFileFromObjectWithName, h]
  exact ⟨_, rfl, rfl⟩

/-- When the storage client accepts the file, `persistItem` stores it and records its CID. -/
theorem persistItem_ok (env : Env) (q : Query) (round : Option Nat) (url : String)
    (data : Option TweetData) (s : Twitter) (cid : String)
    (hput : env.put s.tick (.item data url) = .ok cid) :
    (persistItem env q round url data s).2.log =
      s.log ++ [.storeFiles (.item data url)] ++
        [.cidsCreate { id := url, round := round.getD 0, cid := cid }] ∧
    (persistItem env q round url data s).2.cids =
      Data.create CidRecord.id s.cids { id := url, round := round.getD 0, cid := cid } := by
  have h : env.put ({ s with parsed := s.parsed.set url data } : Twitter).tick
      (.item data url) = .ok cid := hput
  simp only [persistItem, storeFiles, makeFileFromObjectWithName, h]
  exact discoverMore_log env q url _

/-- The loop body when the round is delivered and the queue starts with a URL. -/
theorem crawlBody_eq (env : Env) (q : Query) (s : Twitter) (round : Option Nat)
    (url : String) (rest : List String)
    (hround : env.updateRound s.tick = .ok round)
    (hqueue : s.toCrawl = url :: rest) (hurl : url ≠ "") :
    crawlBody env q s =
      match parseItem env url q (atParse s rest) with
      | (.error e, s1) => (.error e, s1)
      | (.ok data, s1) => persistItem env q round url data s1 := by
  unfold crawlBody
  simp only [hround]
  rw [hqueue]
  simp only [hurl, if_false]

/-- C9, as stated, fails: in a world where the item pages fail to load, `crawl` on the two
URLs of the sample search page ends with the error of the first page, the second URL still
in the queue and never extracted. -/
theorem crawl_stops_at_first_failure :
    ∃ s, crawl noPageEnv limitOne 5 loggedIn = .threw "TimeoutError: Navigation timeout" s ∧
      s.toCrawl = ["https://twitter.com/status/222"] ∧
      s.log = [.extract "https://twitter.com/status/111"] :=
  ⟨(crawl noPageEnv limitOne 5 loggedIn).state, by decide, by decide, by decide⟩

/-- C9, amended: when the loop condition holds, the round is delivered and the queue starts
with a URL, a failure of `parseItem` for that URL, or of the storage client for the file of
that URL, ends the loop with that error, and the URLs behind it stay in the queue. -/
theorem crawlLoop_failure_propagates (env : Env) (q : Query) (fuel : Nat) (s : Twitter)
    (round : Option Nat) (url : String) (rest : List String) (e : String)
    (_hrec : q.isRecursive = false)
    (hcond : crawlCondition env q s = true)
    (hround : env.updateRound s.tick = .ok round)
    (hqueue : s.toCrawl = url :: rest) (hurl : url ≠ "")
    (hfail : (parseItem env url q (atParse s rest)).1 = .error e ∨
      ∃ data, (parseItem env url q (atParse s rest)).1 = .ok data ∧
        env.put (parseItem env url q (atParse s rest)).2.tick (.item data url) = .error e) :
    ∃ s1, crawlLoop env q (fuel + 1) s = .threw e s1 ∧ s1.toCrawl = rest := by
  have htc : (parseItem env url q (atParse s rest)).2.toCrawl = rest :=
    parseItem_toCrawl env url q (atParse s rest)
  simp only [crawlLoop, hcond, if_true]
  rw [crawlBody_eq env q s round url rest hround hqueue hurl]
  rcases hp : parseItem env url q (atParse s rest) with ⟨r, s3⟩
  rw [hp] at hfail htc
  rcases hfail with h | ⟨data, h1, h2⟩
  · simp only at h
    subst h
    exact ⟨s3, rfl, htc⟩
  · simp only at h1 h2 htc
    subst h1
    obtain ⟨s4, h4, h5⟩ := persistItem_error env q round url data s3 e h2
    simp only [h4]
    exact ⟨s4, rfl, h5.trans htc⟩

/-- Witness of C9, amended: the first pass in the world whose item pages fail to load. -/
theorem crawlLoop_failure_propagates_witness :
    ∃ s1, crawlLoop noPageEnv limitOne (4 + 1) (crawl noPageEnv limitOne 0 loggedIn).state =
        .threw "TimeoutError: Navigation timeout" s1 ∧
      s1.toCrawl = ["https://twitter.com/status/222"] :=
  crawlLoop_failure_propagates noPageEnv limitOne 4 (crawl noPageEnv limitOne 0 loggedIn).state
    (some 7) "https://twitter.com/status/111" ["https://twitter.com/status/222"]
    "TimeoutError: Navigation timeout" rfl (by decide) rfl (by decide) (by decide) (Or.inl rfl)

/-- C10, as stated, fails: in a world whose item pages hold no article, `parseItem` returns
the empty object for the first URL and the first pass of `crawl` stores a file for it and
creates its record in `cids`. -/
theorem crawl_persists_empty_record :
    (parseItem noArticleEnv "https://twitter.com/status/111" limitOne
      (atParse (crawl noArticleEnv limitOne 0 loggedIn).state
        ["https://twitter.com/status/222"])).1 = .ok none ∧
    (crawl noArticleEnv limitOne 1 loggedIn).state.log =
      [.extract "https://twitter.com/status/111",
       .storeFiles (.item none "https://twitter.com/status/111"),
       .cidsCreate { id := "https://twitter.com/status/111", round := 7,
                     cid := "bafy-item-https://twitter.com/status/111" }] ∧
    (crawl noArticleEnv limitOne 1 loggedIn).state.cids =
      [{ id := "https://twitter.com/status/111", round := 7,
         cid := "bafy-item-https://twitter.com/status/111" }] :=
  ⟨rfl, by decide, by decide⟩

/-- C10, amended: when the round is delivered, the queue starts with a URL, `parseItem`
returns the empty object for it and the storage client accepts the file, the pass stores
the file that holds only the URL and creates the record of the URL in `cids`. -/
theorem crawlBody_persists_empty_record (env : Env) (q : Query) (s : Twitter)
    (round : Option Nat) (url : String) (rest : List String) (cid : String)
    (_hrec : q.isRecursive = false)
    (hround : env.updateRound s.tick = .ok round)
    (hqueue : s.toCrawl = url :: rest) (hurl : url ≠ "")
    (hempty : (parseItem env url q (atParse s rest)).1 = .ok none)
    (hput : env.put (parseItem env url q (atParse s rest)).2.tick (.item none url) = .ok cid) :
    (crawlBody env q s).2.log =
      (parseItem env url q (atParse s rest)).2.log ++ [.storeFiles (.item none url)] ++
        [.cidsCreate { id := url, round := round.getD 0, cid := cid }] ∧
    ({ id := url, round := round.getD 0, cid := cid } : CidRecord) ∈
      (crawlBody env q s).2.cids := by
  rw [crawlBody_eq env q s round url rest hround hqueue hurl]
  rcases hp : parseItem env url q (atParse s rest) with ⟨r, s3⟩
  rw [hp] at hempty hput
  simp only at hempty hput
  subst hempty
  obtain ⟨hlog, hcids⟩ := persistItem_ok env q round url none s3 cid hput
  simp only [hlog, hcids, Data.create, List.mem_append, List.mem_singleton, or_true, and_self]

/-- Witness of C10, amended: the first pass in the world whose item pages hold no article. -/
theorem crawlBody_persists_empty_record_witness :
    (crawlBody noArticleEnv limitOne (crawl noArticleEnv limitOne 0 loggedIn).state).2.log =
      (parseItem noArticleEnv "https://twitter.com/status/111" limitOne
        (atParse (crawl noArticleEnv limitOne 0 loggedIn).state
          ["https://twitter.com/status/222"])).2.log ++
        [.storeFiles (.item none "https://twitter.com/status/111")] ++
        [.cidsCreate { id := "https://twitter.com/status/111", round := (some 7).getD 0,
                       cid := "bafy-item-https://twitter.com/status/111" }] ∧
    ({ id := "https://twitter.com/status/111", round := (some 7).getD 0,
       cid := "bafy-item-https://twitter.com/status/111" } : CidRecord) ∈
      (crawlBody noArticleEnv limitOne (crawl noArticleEnv limitOne 0 loggedIn).state).2.cids :=
  crawlBody_persists_empty_record noArticleEnv limitOne
    (crawl noArticleEnv limitOne 0 loggedIn).state (some 7) "https://twitter.com/status/111"
    ["https://twitter.com/status/222"] "bafy-item-https://twitter.com/status/111"
    rfl rfl (by decide) (by decide) rfl rfl

/-! ## Extraction -/

/-- The object is populated only from a first article with an author and a text. -/
theorem parseArticles_some (articles : List Article) (data : TweetData)
    (h : parseArticles articles = some data) :
    ∃ first rest, articles = first :: rest ∧ first.tweetUser ≠ "" ∧ first.tweetText ≠ "" := by
  cases articles with
  | nil => simp [parseArticles] at h
  | cons first rest =>
    refine ⟨first, rest, rfl, ?_⟩
    by_contra hne
    simp [parseArticles, hne] at h

/-- With a session, or a negotiation that completes, and a page that renders, `parseItem`
returns the object built from the articles of the page. -/
theorem parseItem_ok (env : Env) (url : String) (q : Query) (s : Twitter)
    (articles : List Article)
    (hsession : (s.sessionValid = true ∧ s.page = true) ∨
      (s.sessionValid = false ∧ env.negotiation s.tick = .completes))
    (hrender : env.articles (readTick s) url = .ok articles) :
    (parseItem env url q s).1 = .ok (parseArticles articles) := by
  rcases hsession with ⟨hv, hp⟩ | ⟨hv, hn⟩
  · have hr : env.articles s.tick url = .ok articles := by
      simpa [readTick, hv] using hrender
    simp [parseItem, readItem, Twitter.emit, hv, hp, hr]
  · have hr : env.articles (s.tick + 1 + 1) url = .ok articles := by
      simpa [readTick, hv] using hrender
    simp [parseItem, readItem, negotiateSession, Twitter.emit, Twitter.next, hv, hn, hr]

/-- C11: when the session is valid or the negotiation completes, and the page renders,
`parseItem` does not throw; for a page without article it returns the empty object, and
it returns a populated object only when the first article has a non-empty author and a
non-empty text.  The callbacks of the side path are not started (`articles.length ≤ 1`) or
do nothing (`isRecursive` unset). -/
theorem parseItem_empty_unless_first_article (env : Env) (url : String) (q : Query)
    (s : Twitter) (articles : List Article)
    (hsession : (s.sessionValid = true ∧ s.page = true) ∨
      (s.sessionValid = false ∧ env.negotiation s.tick = .completes))
    (hrender : env.articles (readTick s) url = .ok articles)
    (_hside : articles.length ≤ 1 ∨ q.isRecursive = false) :
    (∃ data, (parseItem env url q s).1 = .ok data) ∧
    (articles = [] → (parseItem env url q s).1 = .ok none) ∧
    (∀ data, (parseItem env url q s).1 = .ok (some data) →
      ∃ first rest, articles = first :: rest ∧ first.tweetUser ≠ "" ∧
        first.tweetText ≠ "") := by
  have h := parseItem_ok env url q s articles hsession hrender
  refine ⟨⟨_, h⟩, ?_, ?_⟩
  · intro hnil
    rw [h, hnil]
    rfl
  · intro data hd
    rw [h] at hd
    exact parseArticles_some articles data (Except.ok.inj hd)

/-- Witness of C11: a fresh crawler whose negotiation completes, on a page without
article. -/
theorem parseItem_empty_unless_first_article_witness :
    (∃ data, (parseItem noArticleEnv "https://twitter.com/status/111" limitOne
      Twitter.new).1 = .ok data) ∧
    (([] : List Article) = [] →
      (parseItem noArticleEnv "https://twitter.com/status/111" limitOne Twitter.new).1 =
        .ok none) ∧
    (∀ data, (parseItem noArticleEnv "https://twitter.com/status/111" limitOne
        Twitter.new).1 = .ok (some data) →
      ∃ first rest, ([] : List Article) = first :: rest ∧ first.tweetUser ≠ "" ∧
        first.tweetText ≠ "") :=
  parseItem_empty_unless_first_article noArticleEnv "https://twitter.com/status/111" limitOne
    Twitter.new [] (Or.inr ⟨rfl, rfl⟩) rfl (Or.inl (by decide))

/-! ## The freshness policy of `checkSession` -/

/-- C12, as stated, fails: with the flag unset and exactly 60000 ms elapsed since the
stamp, `checkSession` returns `false` and starts no negotiation; the same on a fresh
crawler when the clock shows 60000. -/
theorem checkSession_at_sixty_seconds :
    checkSession minuteLaterEnv staleSession = (.ok false, staleSession.next) ∧
    (minuteLaterEnv.now staleSession.tick : Int) -
      ((staleSession.lastSessionCheck.getD 0 : Nat) : Int) = 60000 ∧
    (checkSession minuteLaterEnv staleSession).2.log = [] ∧
    checkSession epochMinuteEnv Twitter.new = (.ok false, Twitter.new.next) :=
  ⟨rfl, by decide, by decide, rfl⟩

/-- C12, amended: with the flag set `checkSession` returns `true` and changes nothing;
with the flag unset and more than 60000 ms between `Date.now()` and `lastSessionCheck`
(`null` read as `0`) it starts one negotiation and returns `true` when that completes;
with the flag unset and 60000 ms or less it returns `false` and starts no negotiation. -/
theorem checkSession_policy (env : Env) (s : Twitter) :
    (s.sessionValid = true → checkSession env s = (.ok true, s)) ∧
    (s.sessionValid = false →
      (env.now s.tick : Int) - ((s.lastSessionCheck.getD 0 : Nat) : Int) > 60000 →
      (checkSession env s).2 = (negotiateSession env s.next).2 ∧
      (checkSession env s).2.log = s.log ++ [.negotiate (env.now (s.tick + 1))] ∧
      (env.negotiation (s.tick + 1) = .completes → (checkSession env s).1 = .ok true)) ∧
    (s.sessionValid = false →
      (env.now s.tick : Int) - ((s.lastSessionCheck.getD 0 : Nat) : Int) ≤ 60000 →
      checkSession env s = (.ok false, s.next)) := by
  refine ⟨?_, ?_, ?_⟩
  · intro hv
    simp [checkSession, hv]
  · intro hv hgt
    have hlog : (negotiateSession env s.next).2.log =
        s.log ++ [.negotiate (env.now (s.tick + 1))] := by
      unfold negotiateSession
      cases env.negotiation s.next.tick <;> rfl
    have hcs : checkSession env s =
        match negotiateSession env s.next with
        | (.error e, s2) => (.error e, s2)
        | (.ok _, s2) => (.ok true, s2) := by
      simp only [checkSession, hv, hgt, if_true]
      rfl
    rw [hcs]
    refine ⟨?_, ?_, ?_⟩
    · rcases negotiateSession env s.next with ⟨r, s2⟩
      cases r <;> rfl
    · rw [← hlog]
      rcases negotiateSession env s.next with ⟨r, s2⟩
      cases r <;> rfl
    · intro hc
      have hc2 : env.negotiation s.next.tick = .completes := hc
      simp [negotiateSession, hc2]
  · intro hv hle
    have hng : ¬ ((env.now s.tick : Int) - ((s.lastSessionCheck.getD 0 : Nat) : Int) > 60000) :=
      not_lt.mpr hle
    simp only [checkSession, hv, hng, if_false]
    rfl

/-- Witness of C12, amended: the logged-in crawler, the stale session one millisecond
past the minute, and the stale session at the minute. -/
theorem checkSession_policy_witness :
    checkSession sampleEnv loggedIn = (.ok true, loggedIn) ∧
    ((checkSession minutePlusOneEnv staleSession).2 =
        (negotiateSession minutePlusOneEnv staleSession.next).2 ∧
      (checkSession minutePlusOneEnv staleSession).2.log =
        staleSession.log ++ [.negotiate (minutePlusOneEnv.now (staleSession.tick + 1))] ∧
      (minutePlusOneEnv.negotiation (staleSession.tick + 1) = .completes →
        (checkSession minutePlusOneEnv staleSession).1 = .ok true)) ∧
    checkSession minuteLaterEnv staleSession = (.ok false, staleSession.next) :=
  ⟨(checkSession_policy sampleEnv loggedIn).1 rfl,
   (checkSession_policy minutePlusOneEnv staleSession).2.1 rfl (by decide),
   (checkSession_policy minuteLaterEnv staleSession).2.2 rfl (by decide)⟩

/-! ## The distribution list -/

/-- The count of lines 103-107 is the number of valid votes less the number of the others. -/
theorem foldl_votes (votes : List Vote) : ∀ n : Int,
    votes.foldl (fun n vote => if vote.is_valid then n + 1 else n - 1) n =
      n + (validVotes votes : Int) - (invalidVotes votes : Int) := by
  induction votes with
  | nil => intro n; simp [validVotes, invalidVotes]
  | cons vote votes ih =>
    intro n
    simp only [List.foldl_cons, ih]
    cases hv : vote.is_valid
    · simp [validVotes, invalidVotes, List.filter, hv]
      ring
    · simp [validVotes, invalidVotes, List.filter, hv]
      ring

theorem numOfVotes_neg_iff (votes : List Vote) :
    numOfVotes votes < 0 ↔ validVotes votes < invalidVotes votes := by
  unfold numOfVotes
  rw [foldl_votes]
  omega

/-- The key `__proto__` is one of the inherited names. -/
theorem ne_proto_of_not_inherited (key : String) (h : key ∉ objectPrototypeKeys) :
    key ≠ "__proto__" := by
  intro heq
  subst heq
  exact h (by decide)

/-- What `distributionList[key] = value` leaves in the object, for a key other than
`__proto__`. -/
theorem mem_setProperty (obj : List (String × Nat)) (key : String) (value : Nat)
    (hkey : key ≠ "__proto__") (k : String) (v : Nat) :
    (k, v) ∈ setProperty obj key value ↔
      (k = key ∧ v = value) ∨ (k ≠ key ∧ (k, v) ∈ obj) := by
  unfold setProperty
  simp only [hkey, if_false]
  by_cases hany : obj.any (fun p => decide (p.1 = key)) = true
  · simp only [hany, if_true, List.mem_map]
    obtain ⟨p0, hp0, hk0⟩ := List.any_eq_true.1 hany
    have hk0 : p0.1 = key := by simpa using hk0
    constructor
    · rintro ⟨p, hp, heq⟩
      by_cases hpk : p.1 = key
      · simp only [hpk, if_true, Prod.mk.injEq] at heq
        exact Or.inl ⟨heq.1.symm, heq.2.symm⟩
      · simp only [hpk, if_false] at heq
        subst heq
        exact Or.inr ⟨hpk, hp⟩
    · rintro (⟨rfl, rfl⟩ | ⟨hne, hmem⟩)
      · exact ⟨p0, hp0, by simp [hk0]⟩
      · exact ⟨(k, v), hmem, by simp [hne]⟩
  · have hf : obj.any (fun p => decide (p.1 = key)) = false := Bool.eq_false_iff.2 hany
    simp only [hf, Bool.false_eq_true, if_false, List.mem_append, List.mem_singleton,
      Prod.mk.injEq]
    have hnone : ∀ p ∈ obj, p.1 ≠ key := by
      intro p hp heq
      exact hany (List.any_eq_true.2 ⟨p, hp, by simpa using heq⟩)
    constructor
    · rintro (hmem | ⟨rfl, rfl⟩)
      · exact Or.inr ⟨hnone _ hmem, hmem⟩
      · exact Or.inl ⟨rfl, rfl⟩
    · rintro (⟨rfl, rfl⟩ | ⟨_, hmem⟩)
      · exact Or.inr ⟨rfl, rfl⟩
      · exact Or.inl hmem

/-- For a key that is not an inherited name the read finds the own entry or nothing. -/
theorem readProperty_of_not_inherited (trigger : List (String × AuditTrigger)) (key : String)
    (hkey : key ∉ objectPrototypeKeys) :
    readProperty trigger key =
      match trigger.lookup key with
      | some entry => .own entry
      | none => .absent := by
  unfold readProperty
  cases trigger.lookup key with
  | none => simp [hkey]
  | some entry => rfl

/-- A key that is kept is given the reward. -/
theorem distributionStep_keeps (L : Nat) (trigger : Option (List (String × AuditTrigger)))
    (list : List (String × Nat)) (key : String) (hkey : key ∉ objectPrototypeKeys)
    (h : KeepsSubmitter trigger key) :
    distributionStep L trigger list key = some (setProperty list key (1 * L)) := by
  cases trigger with
  | none => rfl
  | some t =>
    simp only [distributionStep, readProperty_of_not_inherited t key hkey]
    cases hl : t.lookup key with
    | none => rfl
    | some entry =>
      have hle := h entry (by simpa using hl)
      have hnn : ¬ numOfVotes entry.votes < 0 := by
        rw [numOfVotes_neg_iff]; omega
      simp only [hnn, if_false]

/-- A key that is not kept is passed over. -/
theorem distributionStep_skips (L : Nat) (trigger : Option (List (String × AuditTrigger)))
    (list : List (String × Nat)) (key : String) (hkey : key ∉ objectPrototypeKeys)
    (h : ¬ KeepsSubmitter trigger key) :
    distributionStep L trigger list key = some list := by
  cases trigger with
  | none => exact absurd (fun entry he => by cases he) h
  | some t =>
    simp only [distributionStep, readProperty_of_not_inherited t key hkey]
    cases hl : t.lookup key with
    | none =>
      refine absurd (fun entry he => ?_) h
      have he2 : t.lookup key = some entry := by simpa using he
      rw [hl] at he2
      cases he2
    | some entry =>
      have hneg : numOfVotes entry.votes < 0 := by
        rw [numOfVotes_neg_iff]
        by_contra hlt
        apply h
        intro entry2 he
        have he2 : t.lookup key = some entry2 := by simpa using he
        rw [hl] at he2
        cases he2
        omega
      simp only [hneg, if_true]

/-- The entries of the object after the loop has run over keys none of which is an
inherited name: the loop does not throw. -/
theorem mem_distributionLoop (L : Nat)
    (trigger : Option (List (String × AuditTrigger))) (keys : List String) :
    ∀ (acc : List (String × Nat)), (∀ key ∈ keys, key ∉ objectPrototypeKeys) →
      ∃ list, distributionLoop L trigger keys acc = some list ∧
        ∀ (k : String) (v : Nat), (k, v) ∈ list ↔
          ((k, v) ∈ acc ∧ ¬ (k ∈ keys ∧ KeepsSubmitter trigger k)) ∨
          (k ∈ keys ∧ KeepsSubmitter trigger k ∧ v = 1 * L) := by
  induction keys with
  | nil => intro acc _; exact ⟨acc, rfl, by simp⟩
  | cons x xs ih =>
    intro acc hkeys
    have hx : x ∉ objectPrototypeKeys := hkeys x (List.mem_cons_self _ _)
    have hxs : ∀ key ∈ xs, key ∉ objectPrototypeKeys :=
      fun key hk => hkeys key (List.mem_cons_of_mem _ hk)
    by_cases hkeep : KeepsSubmitter trigger x
    · obtain ⟨list, hlist, hmem⟩ := ih (setProperty acc x (1 * L)) hxs
      refine ⟨list, ?_, ?_⟩
      · simp only [distributionLoop, distributionStep_keeps L trigger acc x hx hkeep, hlist]
      · intro k v
        rw [hmem, mem_setProperty acc x (1 * L) (ne_proto_of_not_inherited x hx)]
        simp only [List.mem_cons]
        by_cases hkx : k = x
        · subst hkx
          tauto
        · tauto
    · obtain ⟨list, hlist, hmem⟩ := ih acc hxs
      refine ⟨list, ?_, ?_⟩
      · simp only [distributionLoop, distributionStep_skips L trigger acc x hx hkeep, hlist]
      · intro k v
        rw [hmem]
        simp only [List.mem_cons]
        by_cases hkx : k = x
        · subst hkx
          tauto
        · tauto

/-- C13, as stated, fails: a submitter under the key `constructor`, with no audit entry,
in a round that has an audit object makes the method return `undefined`, and a submitter
under the key `__proto__`, with no audit entry, is left out of the list. -/
theorem generateDistributionList_inherited_keys :
    generateDistributionList 1000000000 (.ok (some inheritedKeyState)) 3 none = none ∧
    KeepsSubmitter (inheritedKeyState.submissions_audit_trigger.lookup 3) "constructor" ∧
    generateDistributionList 1000000000 (.ok (some protoKeyState)) 3 none = some [] ∧
    KeepsSubmitter (protoKeyState.submissions_audit_trigger.lookup 3) "__proto__" := by
  refine ⟨by decide, ?_, by decide, ?_⟩
  · intro entry h
    have hnone : (inheritedKeyState.submissions_audit_trigger.lookup 3).bind
        (fun trigger => trigger.lookup "constructor") = none := by decide
    rw [hnone] at h
    cases h
  · intro entry h
    have hnone : (protoKeyState.submissions_audit_trigger.lookup 3).bind
        (fun trigger => trigger.lookup "__proto__") = none := by decide
    rw [hnone] at h
    cases h

/-- C13, amended: on a task state, fetched or given as the dummy, in which no submitter key
of the round is a name inherited from `Object.prototype`, `generateDistributionList`
returns a list: the empty list when the round has no submissions; otherwise the list whose
keys are exactly the submitters of the round that have no audit entry or at least as many
valid as invalid votes, each with the value `1 * LAMPORTS_PER_SOL`; a submitter with more
invalid than valid votes is not in it. -/
theorem generateDistributionList_rewards (LAMPORTS_PER_SOL round : Nat)
    (fetched dummy : Option TaskState) (state : TaskState)
    (hstate : fetched = some state ∨ (fetched = none ∧ dummy = some state))
    (hkeys : ∀ entries, state.submissions.lookup round = some entries →
      ∀ key entry, (key, entry) ∈ entries → key ∉ objectPrototypeKeys) :
    ∃ list, generateDistributionList LAMPORTS_PER_SOL (.ok fetched) round dummy = some list ∧
      (state.submissions.lookup round = none → list = []) ∧
      (∀ entries, state.submissions.lookup round = some entries →
        (∀ key value, (key, value) ∈ list ↔
          (∃ entry, (key, entry) ∈ entries) ∧
          KeepsSubmitter (state.submissions_audit_trigger.lookup round) key ∧
          value = 1 * LAMPORTS_PER_SOL) ∧
        (∀ key audit,
          (state.submissions_audit_trigger.lookup round).bind
            (fun trigger => trigger.lookup key) = some audit →
          validVotes audit.votes < invalidVotes audit.votes →
          ∀ value, (key, value) ∉ list)) := by
  have hts : fetched.orElse (fun _ => dummy) = some state := by
    rcases hstate with h | ⟨h1, h2⟩
    · rw [h]; rfl
    · rw [h1, h2]; rfl
  cases hsub : state.submissions.lookup round with
  | none =>
    refine ⟨[], ?_, fun _ => rfl, fun entries he => by cases he⟩
    simp only [generateDistributionList, hts, hsub]
  | some entries =>
    have hk : ∀ key ∈ entries.map Prod.fst, key ∉ objectPrototypeKeys := by
      intro key hmem
      obtain ⟨p, hp, rfl⟩ := List.mem_map.1 hmem
      exact hkeys entries hsub p.1 p.2 hp
    obtain ⟨list, hlist, hmem0⟩ := mem_distributionLoop LAMPORTS_PER_SOL
      (state.submissions_audit_trigger.lookup round) (entries.map Prod.fst) [] hk
    have hmem : ∀ key value, (key, value) ∈ list ↔
        (∃ entry, (key, entry) ∈ entries) ∧
        KeepsSubmitter (state.submissions_audit_trigger.lookup round) key ∧
        value = 1 * LAMPORTS_PER_SOL := by
      intro key value
      rw [hmem0]
      simp only [List.not_mem_nil, false_and, false_or, List.mem_map, Prod.exists,
        exists_and_right, exists_eq_right]
    refine ⟨list, ?_, fun h => (by cases h), ?_⟩
    · simp only [generateDistributionList, hts, hsub, hlist]
    · intro entries2 he
      cases he
      refine ⟨hmem, ?_⟩
      intro key audit haudit hlt value hin
      have hle := ((hmem key value).1 hin).2.1 audit haudit
      omega

/-- Witness of C13, amended: the sample task state, fetched, in round 3. -/
theorem generateDistributionList_rewards_witness :
    ∃ list, generateDistributionList 1000000000 (.ok (some sampleTaskState)) 3 none =
        some list ∧
      (sampleTaskState.submissions.lookup 3 = none → list = []) ∧
      (∀ entries, sampleTaskState.submissions.lookup 3 = some entries →
        (∀ key value, (key, value) ∈ list ↔
          (∃ entry, (key, entry) ∈ entries) ∧
          KeepsSubmitter (sampleTaskState.submissions_audit_trigger.lookup 3) key ∧
          value = 1 * 1000000000) ∧
        (∀ key audit,
          (sampleTaskState.submissions_audit_trigger.lookup 3).bind
            (fun trigger => trigger.lookup key) = some audit →
          validVotes audit.votes < invalidVotes audit.votes →
          ∀ value, (key, value) ∉ list)) :=
  generateDistributionList_rewards 1000000000 3 (some sampleTaskState) none sampleTaskState
    (Or.inl rfl)
    (by
      intro entries he key entry hmem
      have hentries : entries = [("alice", { submission_value := "cidA" }),
          ("bob", { submission_value := "cidB" }), ("carol", { submission_value := "cidC" })] :=
        (Option.some.inj he).symm
      subst hentries
      simp only [List.mem_cons, Prod.mk.injEq, List.mem_nil_iff, or_false] at hmem
      rcases hmem with ⟨rfl, _⟩ | ⟨rfl, _⟩ | ⟨rfl, _⟩ <;> decide)

end TwitterCrawler
